import Mathlib

/-!
Verification of the grid-trading-bot repository core.

The development shallowly embeds the Python source:

* `grid_trading/utils/rate_limiter.py` (the "main" variant) and
  `scripts/.../utils/rate_limiter.py` (the "scripts" variant): a token-bucket
  rate limiter.  Token counts are real-valued in the source (float arithmetic
  on `time.monotonic()` differences); they are modelled as rationals.
* `grid_trading/strategies/grid.py`: grid-ladder construction and order
  placement (`GridTradingStrategy`).
* `scripts/.../strategies/grid.py`: the minimal `GridStrategy` with its
  `stop` method.
* `scripts/.../utils/validation.py`: pydantic configuration validation.
* `grid_trading/core/strategy.py`: the abstract `TradingStrategy` base class,
  modelled at the level of Python ABC semantics (method-name sets).
* the fill-rebalancing engine of spec §4.3, which the source only declares
  (`TradingStrategy.on_order_filled` is abstract and nowhere implemented);
  it is modelled from the spec, and marked as such.

External collaborators (the exchange, the wall clock, the event source) are
modelled as explicit parameters/oracles, matching the spec's treatment of
them as interfaces.
-/

namespace GridBot

/-! ## Rate limiter

State of a `RateLimiter` object.  `last_update` is not carried explicitly:
every refill takes the elapsed monotonic-clock time since the previous
refill as a parameter (the source computes `time_passed = now - self.last_update`
and then sets `self.last_update = now`). -/

structure RateLimiterState where
  maxRequests : ℕ
  timeWindow : ℚ
  tokens : ℚ
deriving DecidableEq, Repr

/-- Python's two-argument `min`: returns the first argument when it is less
than or equal to the second.  (Defined by cases so that concrete states
evaluate by `simp`; `ratMin_eq_min` below identifies it with `min` on ℚ.) -/
def ratMin (a b : ℚ) : ℚ := if a ≤ b then a else b

/-- The lazy refill both variants perform:
`tokens = min(max_requests, tokens + time_passed * max_requests / time_window)`.
In the main variant (`grid_trading/utils/rate_limiter.py` lines 47-53) the
source line is interrupted by a stray shell-heredoc paste artifact; joining
line 49's `self.max` with line 52's `requests / self.time_window)` recovers
the expression, identical to the scripts variant's line 19. -/
def bucketRefill (s : RateLimiterState) (elapsed : ℚ) : RateLimiterState :=
  { s with tokens :=
      (ratMin (s.maxRequests : ℚ) (s.tokens + elapsed * s.maxRequests / s.timeWindow)) }

/-- Constructor of the scripts variant: `self.tokens = max_requests`. -/
def scriptsInit (maxR : ℕ) (window : ℚ) : RateLimiterState :=
  ⟨maxR, window, (maxR : ℚ)⟩

/-- Constructor of the main variant: `self.tokens = initial_tokens or max_requests`
(Python `or`: an `initial_tokens` of `0` or `None` falls back to `max_requests`). -/
def mainInit (maxR : ℕ) (window : ℚ) (initTokens : Option ℕ) : RateLimiterState :=
  ⟨maxR, window,
    ((match initTokens with
      | some n => if n = 0 then maxR else n
      | none => maxR : ℕ) : ℚ)⟩

/-- Method `acquire` of the scripts variant (`scripts/.../utils/rate_limiter.py`
lines 13-26), one whole call under the lock: refill, then
`if self.tokens < 1: await asyncio.sleep(0.1)` — and return —
`else: self.tokens -= 1`.  The boolean records whether a token was consumed
by this call. -/
def scriptsAcquire (s : RateLimiterState) (elapsed : ℚ) : RateLimiterState × Bool :=
  let s' := bucketRefill s elapsed
  if s'.tokens < 1 then (s', false)
  else ({ s' with tokens := s'.tokens - 1 }, true)

/-- Method `acquire` of the main variant (`grid_trading/utils/rate_limiter.py`
lines 41-59): `while self.tokens <= 0:` refill (and sleep 0.1 s if still
non-positive), then `self.tokens -= 1`.  The list supplies the elapsed
monotonic-clock time observed by each loop iteration; `none` means the call
is still inside the loop after exhausting the supplied clock readings. -/
def mainAcquire : RateLimiterState → List ℚ → Option RateLimiterState
  | s, [] =>
      if s.tokens ≤ 0 then none
      else some { s with tokens := s.tokens - 1 }
  | s, e :: rest =>
      if s.tokens ≤ 0 then mainAcquire (bucketRefill s e) rest
      else some { s with tokens := s.tokens - 1 }

/-! ### Lock/suspension traces

To settle the lock-holding claim we record the sequence of observable events
of one `acquire` call.  Both variants execute their whole body inside
`async with self.lock`, so the trace opens with the lock acquisition and
closes with its release. -/

inductive LimiterEvent where
  | lockAcquireEv
  | refillEv
  | sleepEv
  | consumeEv
  | lockReleaseEv
deriving DecidableEq, Repr

/-- Event trace of one scripts-variant `acquire` call.  The entire body,
including the `asyncio.sleep(0.1)` on the empty branch, runs inside
`async with self.lock`. -/
def scriptsAcquireTrace (s : RateLimiterState) (elapsed : ℚ) : List LimiterEvent :=
  [LimiterEvent.lockAcquireEv, LimiterEvent.refillEv] ++
    (if (bucketRefill s elapsed).tokens < 1 then [LimiterEvent.sleepEv]
     else [LimiterEvent.consumeEv]) ++
    [LimiterEvent.lockReleaseEv]

/-- Loop part of the main-variant trace: each iteration refills and, if the
bucket is still non-positive, sleeps — all without leaving the `async with`
block.  An exhausted clock list leaves the call suspended inside the lock. -/
def mainLoopTrace : RateLimiterState → List ℚ → List LimiterEvent
  | s, [] =>
      if s.tokens ≤ 0 then []
      else [LimiterEvent.consumeEv, LimiterEvent.lockReleaseEv]
  | s, e :: rest =>
      if s.tokens ≤ 0 then
        LimiterEvent.refillEv ::
          ((if (bucketRefill s e).tokens ≤ 0 then [LimiterEvent.sleepEv] else []) ++
            mainLoopTrace (bucketRefill s e) rest)
      else [LimiterEvent.consumeEv, LimiterEvent.lockReleaseEv]

/-- Event trace of one main-variant `acquire` call. -/
def mainAcquireTrace (s : RateLimiterState) (es : List ℚ) : List LimiterEvent :=
  LimiterEvent.lockAcquireEv :: mainLoopTrace s es

/-- Scanner `sleepsUnderLockFrom held tr`: scans a trace and returns `true` when a
sleep event occurs while the mutual-exclusion lock is held. -/
def sleepsUnderLockFrom : Bool → List LimiterEvent → Bool
  | _, [] => false
  | _, LimiterEvent.lockAcquireEv :: rest => sleepsUnderLockFrom true rest
  | _, LimiterEvent.lockReleaseEv :: rest => sleepsUnderLockFrom false rest
  | held, LimiterEvent.sleepEv :: rest => held || sleepsUnderLockFrom held rest
  | held, LimiterEvent.refillEv :: rest => sleepsUnderLockFrom held rest
  | held, LimiterEvent.consumeEv :: rest => sleepsUnderLockFrom held rest

/-- A trace sleeps while holding the lock. -/
def sleepsUnderLock (tr : List LimiterEvent) : Bool :=
  sleepsUnderLockFrom false tr

/-! ## Grid strategy: ladder construction
(`grid_trading/strategies/grid.py`, `GridTradingStrategy`) -/

inductive Side where
  | buy
  | sell
deriving DecidableEq, Repr

/-- The `GridConfig` fields read by the strategy (`database/models.py` lines
27-38): symbol, grid_size, upper_price, lower_price, quantity_per_order.
`Numeric`/`Decimal` prices are modelled as rationals. -/
structure StrategyConfig where
  symbol : String
  gridSize : ℕ
  upperPrice : ℚ
  lowerPrice : ℚ
  quantityPerOrder : ℚ
deriving DecidableEq, Repr

/-- Ideal (exact-rational) value of
`price_step = (upper_price - lower_price) / (grid_size - 1)` (grid.py line
46).  The program computes this in Python `Decimal` context arithmetic,
modelled below by `priceStepDec`; the exact value is used where only the
structural behaviour matters (side classification, placement outcomes). -/
def priceStep (cfg : StrategyConfig) : ℚ :=
  (cfg.upperPrice - cfg.lowerPrice) / ((cfg.gridSize : ℚ) - 1)

/-- Ideal (exact-rational) value of the level-`i` price
`price = lower_price + price_step * i` (grid.py line 50); the
Decimal-arithmetic value the program computes is `levelPriceDec`. -/
def levelPrice (cfg : StrategyConfig) (i : ℕ) : ℚ :=
  cfg.lowerPrice + priceStep cfg * i

/-! ### Decimal context arithmetic

The prices are Python `Decimal` values and the arithmetic in grid.py lines
46 and 50 runs in the default decimal context: every operation result is
rounded to 28 significant digits with ROUND_HALF_EVEN.  The model rounds
the exact rational value of each operation, which is exactly the behaviour
of correctly-rounded decimal context arithmetic. -/

/-- Round a rational to the nearest integer, ties to the even integer
(the value-level content of ROUND_HALF_EVEN at a fixed quantum). -/
def roundHalfEven (x : ℚ) : ℤ :=
  let f := ⌊x⌋
  if x - f < 1/2 then f
  else if 1/2 < x - f then f + 1
  else if f % 2 = 0 then f else f + 1

/-- Round a rational to 28 significant decimal digits, half-even: the
adjusted exponent is `Int.log 10 |q|` and the result is quantized to
28 digits at that magnitude.  Zero rounds to zero. -/
def decRound (q : ℚ) : ℚ :=
  if q = 0 then 0
  else
    let m : ℤ := Int.log 10 |q| - 27
    (roundHalfEven (q * (10 : ℚ) ^ (-m)) : ℚ) * (10 : ℚ) ^ m

/-- Decimal context addition. -/
def decAdd (a b : ℚ) : ℚ := decRound (a + b)

/-- Decimal context subtraction. -/
def decSub (a b : ℚ) : ℚ := decRound (a - b)

/-- Decimal context multiplication. -/
def decMul (a b : ℚ) : ℚ := decRound (a * b)

/-- Decimal context division (exact quotient, correctly rounded). -/
def decDiv (a b : ℚ) : ℚ := decRound (a / b)

/-- The program's `price_step` (grid.py line 46) in Decimal arithmetic:
`(upper_price - lower_price) / (grid_size - 1)`, subtraction and division
each context-rounded (`grid_size - 1` is exact `int` arithmetic). -/
def priceStepDec (cfg : StrategyConfig) : ℚ :=
  decDiv (decSub cfg.upperPrice cfg.lowerPrice) ((cfg.gridSize : ℚ) - 1)

/-- The program's level-`i` price (grid.py line 50) in Decimal arithmetic:
`lower_price + (price_step * i)`, multiplication and addition each
context-rounded. -/
def levelPriceDec (cfg : StrategyConfig) (i : ℕ) : ℚ :=
  decAdd cfg.lowerPrice (decMul (priceStepDec cfg) i)

/-- The prices produced by the `for i in range(self.config.grid_size)` loop
(grid.py lines 49-50), as the program computes them. -/
def gridPricesDec (cfg : StrategyConfig) : List ℚ :=
  (List.range cfg.gridSize).map (levelPriceDec cfg)

/-- A configuration whose grid step 1/3 is not representable in 28
significant digits: lower 0, upper 1, grid_size 4. -/
def cfgThirds : StrategyConfig := ⟨"BTC-USD", 4, 1, 0, 1⟩

/-- Side classification (grid.py lines 53-56): `buy` if
`price < current_price`, else `sell` (equality falls to the `else` branch). -/
def classifySide (price currentPrice : ℚ) : Side :=
  if price < currentPrice then Side.buy else Side.sell

/-- The (side, price) pairs the setup loop passes to `_place_grid_order`, one
per iteration.  `priceObs k` is the value returned by the k-th call of
`self._get_current_price()`: the call sits INSIDE the loop (grid.py line 52),
so iteration `i` classifies against observation `i`.  (The method itself is
defined nowhere in the repository; it is modelled as an external ticker
read, the spec's `ExchangeClient.get_ticker`.) -/
def gridPlacements (cfg : StrategyConfig) (priceObs : ℕ → ℚ) : List (Side × ℚ) :=
  (List.range cfg.gridSize).map (fun i =>
    (classifySide (levelPrice cfg i) (priceObs i), levelPrice cfg i))

/-- The concrete configuration of the spec's worked example:
grid_size 5, lower 100, upper 200. -/
def cfg5 : StrategyConfig := ⟨"BTC-USD", 5, 200, 100, 1⟩

/-- An observation sequence in which the re-fetched current price moves while
the ladder is being built: 100 at iteration 0, then 140, 160, 140, 140. -/
def obsVarying : ℕ → ℚ :=
  fun k => if k = 0 then 100 else if k = 2 then 160 else 140

/-! ## Order placement and error handling
(`grid_trading/strategies/grid.py`, `_place_grid_order`) -/

/-- The exceptions `place_limit_order` may raise (`core/exchange.py`
docstring; `scripts/.../core/exceptions.py`): InsufficientFundsError,
InvalidOrderError, and the generic ExchangeError.  `except Exception` in
`_place_grid_order` catches any of them. -/
inductive ExchangeFailure where
  | insufficientFunds
  | invalidOrder
  | exchangeError (msg : String)
deriving DecidableEq, Repr

/-- What one `_place_grid_order` call leaves behind: a logger.info record of
the placed order (grid.py line 67) or a logger.error record of the caught
exception (grid.py line 69). -/
inductive PlaceOutcome where
  | placed (side : Side) (price : ℚ) (orderId : String)
  | failed (side : Side) (price : ℚ) (err : ExchangeFailure)
deriving DecidableEq, Repr

/-- Method `_place_grid_order` (grid.py lines 58-69): the whole body is wrapped in
`try ... except Exception`, so an exchange failure is turned into an error
record instead of propagating.  The `Except` result type models exception
flow: a raised-and-uncaught exception would be `.error`. -/
def placeGridOrder (callResult : Except ExchangeFailure String)
    (side : Side) (price : ℚ) : Except ExchangeFailure PlaceOutcome :=
  match callResult with
  | Except.ok oid => Except.ok (PlaceOutcome.placed side price oid)
  | Except.error e => Except.ok (PlaceOutcome.failed side price e)

/-- The record iteration `i` of the setup loop produces, as a function of
the exchange's response `exch i` to that level's placement call. -/
def levelOutcome (cfg : StrategyConfig) (priceObs : ℕ → ℚ)
    (exch : ℕ → Except ExchangeFailure String) (i : ℕ) : PlaceOutcome :=
  match exch i with
  | Except.ok oid =>
      PlaceOutcome.placed (classifySide (levelPrice cfg i) (priceObs i))
        (levelPrice cfg i) oid
  | Except.error e =>
      PlaceOutcome.failed (classifySide (levelPrice cfg i) (priceObs i))
        (levelPrice cfg i) e

/-- The `for i in range(grid_size)` setup loop (grid.py lines 49-56)
threaded through `Except`: an exception escaping any iteration's
`_place_grid_order` would abort the remaining iterations with `.error`. -/
def runGridSetup (cfg : StrategyConfig) (priceObs : ℕ → ℚ)
    (exch : ℕ → Except ExchangeFailure String) :
    List ℕ → Except ExchangeFailure (List PlaceOutcome)
  | [] => Except.ok []
  | i :: rest =>
    match placeGridOrder (exch i)
        (classifySide (levelPrice cfg i) (priceObs i)) (levelPrice cfg i) with
    | Except.error e => Except.error e
    | Except.ok entry =>
      match runGridSetup cfg priceObs exch rest with
      | Except.error e => Except.error e
      | Except.ok entries => Except.ok (entry :: entries)

/-- The strategy's setup run over all `grid_size` levels. -/
def gridSetupRun (cfg : StrategyConfig) (priceObs : ℕ → ℚ)
    (exch : ℕ → Except ExchangeFailure String) :
    Except ExchangeFailure (List PlaceOutcome) :=
  runGridSetup cfg priceObs exch (List.range cfg.gridSize)

/-! ## The scripts GridStrategy stop (`scripts/.../strategies/grid.py`) -/

/-- Mutable state of the scripts `GridStrategy` (lines 9-19): the running
flag and the active-orders table (order ids). -/
structure GridStrategyState where
  isRunning : Bool
  activeOrders : List String
deriving DecidableEq, Repr

/-- Method `GridStrategy.stop` (lines 28-29): its entire body is
`self.is_running = False`.  The second component counts the cancel requests
the call issues through the exchange: there are none. -/
def gridStrategyStop (s : GridStrategyState) : GridStrategyState × ℕ :=
  ({ s with isRunning := false }, 0)

/-! ## Configuration validation (`scripts/.../utils/validation.py`) -/

/-- The pydantic `GridConfig` input record (validation.py lines 6-11). -/
structure RawGridConfig where
  symbol : String
  gridSize : ℤ
  upperPrice : ℚ
  lowerPrice : ℚ
  quantityPerOrder : ℚ
deriving DecidableEq, Repr

/-- Validation performed at model construction: the only custom validator is
`validate_grid_size` (validation.py lines 13-17), rejecting `grid_size < 2`;
no validator compares `upper_price` with `lower_price` or constrains
`quantity_per_order`. -/
def validateGridConfig (c : RawGridConfig) : Except String RawGridConfig :=
  if c.gridSize < 2 then Except.error ("Grid size must be at least 2")
  else Except.ok c

/-! ## Abstract-base-class semantics
(`core/strategy.py`, `strategies/grid.py`, `cli.py`) -/

/-- The `@abstractmethod`s declared by `TradingStrategy`
(core/strategy.py lines 24-47). -/
def tradingStrategyAbstract : List String :=
  ["initialize", "start", "stop", "on_price_update", "on_order_filled"]

/-- The methods `GridTradingStrategy` defines (grid.py lines 28-69). -/
def gridTradingStrategyDefined : List String :=
  ["__init__", "initialize", "_place_grid_order"]

/-- Abstract methods the subclass leaves without implementation. -/
def unimplementedAbstract : List String :=
  tradingStrategyAbstract.filter
    (fun m => !(gridTradingStrategyDefined.contains m))

/-- Python ABC semantics: instantiating a class raises TypeError exactly
when some abstract method remains unimplemented. -/
def abcRaisesTypeError : Bool := !unimplementedAbstract.isEmpty

/-! ## Fill-driven rebalancing engine (spec §4.3)

`TradingStrategy.on_order_filled` (core/strategy.py lines 44-47) is an
abstract declaration, and no class in the repository implements it;
spec §9 states the one-step replacement rule is the intended design.  The
engine below is therefore modelled from the spec, not from source code. -/

/-- A resting limit order as the engine sees it: side and price. -/
structure GOrder where
  side : Side
  price : ℚ
deriving DecidableEq, Repr

/-- One grid level: target price and the nullable live-order slot. -/
structure GLevel where
  price : ℚ
  slot : Option GOrder
deriving DecidableEq, Repr

/-- Engine lifecycle states (spec §4.3). -/
inductive EnginePhase where
  | idle
  | setting_up
  | running
  | stopping
  | stopped
  | faulted
deriving DecidableEq, Repr

/-- The grid engine: lifecycle phase plus the ladder of levels. -/
structure GridEngine where
  phase : EnginePhase
  levels : List GLevel
deriving DecidableEq, Repr

/-- The opposite side. -/
def Side.opposite : Side → Side
  | Side.buy => Side.sell
  | Side.sell => Side.buy

/-- Modelled from the spec: the target level of the replacement order after
a fill at level `i` — `i+1` for a filled buy, `i−1` for a filled sell
(none when a sell fills at level 0, since `i−1 ≥ 0` fails). -/
def rebalanceTarget : Side → ℕ → Option ℕ
  | Side.buy, i => some (i + 1)
  | Side.sell, 0 => none
  | Side.sell, j + 1 => some j

/-- Modelled from the spec: `on_order_filled` rebalancing (spec §4.3), which
the source only declares abstractly.  In state `running`, when the order at
level `i` fills: clear level `i`'s slot; compute the target level one step
away on the opposite side; if the target exists and its slot is empty, place
exactly one new order at the target's price on the opposite side.  Returns
the new engine state and the list of orders placed by this event. -/
def engineOnOrderFilled (eng : GridEngine) (i : ℕ) : GridEngine × List GOrder :=
  if eng.phase ≠ EnginePhase.running then (eng, []) else
  match eng.levels[i]? with
  | none => (eng, [])
  | some li =>
    match li.slot with
    | none => (eng, [])
    | some ord =>
      let cleared := eng.levels.set i ⟨li.price, none⟩
      match rebalanceTarget ord.side i with
      | none => ({ eng with levels := cleared }, [])
      | some t =>
        match cleared[t]? with
        | none => ({ eng with levels := cleared }, [])
        | some lt =>
          match lt.slot with
          | some _ => ({ eng with levels := cleared }, [])
          | none =>
            let newOrd : GOrder := ⟨ord.side.opposite, lt.price⟩
            ({ eng with levels := cleared.set t ⟨lt.price, some newOrd⟩ },
             [newOrd])

/-- A two-level running engine with a buy resting at level 0 and level 1
empty. -/
def engTwoBuy : GridEngine :=
  ⟨EnginePhase.running, [⟨100, some ⟨Side.buy, 100⟩⟩, ⟨125, none⟩]⟩

/-- A two-level running engine with a sell resting at level 1 and level 0
empty. -/
def engTwoSell : GridEngine :=
  ⟨EnginePhase.running, [⟨100, none⟩, ⟨125, some ⟨Side.sell, 125⟩⟩]⟩

end GridBot

namespace GridBot

/-! ## Supporting lemmas -/

theorem ratMin_eq_min (a b : ℚ) : ratMin a b = min a b := (min_def a b).symm

theorem intLog_eq_of_bounds (q : ℚ) (e : ℤ) (hq : q ≠ 0)
    (h1 : (10 : ℚ) ^ e ≤ |q|) (h2 : |q| < (10 : ℚ) ^ (e + 1)) :
    Int.log 10 |q| = e := by
  have hpos : (0 : ℚ) < |q| := abs_pos.mpr hq
  have hb : 1 < 10 := by norm_num
  have hle : e ≤ Int.log 10 |q| :=
    (Int.zpow_le_iff_le_log hb hpos).mp (by exact_mod_cast h1)
  have hlt : Int.log 10 |q| < e + 1 :=
    (Int.lt_zpow_iff_log_lt hb hpos).mp (by exact_mod_cast h2)
  omega

theorem decRound_eq_scaled (q : ℚ) (e : ℤ) (hq : q ≠ 0)
    (h1 : (10 : ℚ) ^ e ≤ |q|) (h2 : |q| < (10 : ℚ) ^ (e + 1)) :
    decRound q =
      (roundHalfEven (q * (10 : ℚ) ^ (27 - e)) : ℚ) * (10 : ℚ) ^ (e - 27) := by
  unfold decRound
  rw [if_neg hq, intLog_eq_of_bounds q e hq h1 h2]
  ring_nf

theorem roundHalfEven_intCast (n : ℤ) : roundHalfEven (n : ℚ) = n := by
  unfold roundHalfEven
  norm_num

theorem decRound_eq_self (q : ℚ) (n e : ℤ) (hq : q ≠ 0)
    (h1 : (10 : ℚ) ^ e ≤ |q|) (h2 : |q| < (10 : ℚ) ^ (e + 1))
    (hscale : q * (10 : ℚ) ^ (27 - e) = (n : ℚ)) :
    decRound q = q := by
  rw [decRound_eq_scaled q e hq h1 h2, hscale, roundHalfEven_intCast]
  have h10 : ((10 : ℚ) ^ (e - 27)) * ((10 : ℚ) ^ (27 - e)) = 1 := by
    rw [← zpow_add₀ (by norm_num : (10 : ℚ) ≠ 0)]
    norm_num
  calc (n : ℚ) * (10 : ℚ) ^ (e - 27)
      = q * (10 : ℚ) ^ (27 - e) * (10 : ℚ) ^ (e - 27) := by rw [hscale]
    _ = q * (((10 : ℚ) ^ (e - 27)) * ((10 : ℚ) ^ (27 - e))) := by ring
    _ = q := by rw [h10, mul_one]

theorem decRound_zero : decRound 0 = 0 := by simp [decRound]

theorem decRound_1 : decRound 1 = 1 :=
  decRound_eq_self 1 (10 ^ 27) 0 (by norm_num) (by norm_num) (by norm_num)
    (by push_cast; norm_num)

theorem decRound_25 : decRound 25 = 25 :=
  decRound_eq_self 25 (25 * 10 ^ 26) 1 (by norm_num) (by norm_num)
    (by norm_num) (by push_cast; norm_num)

theorem decRound_50 : decRound 50 = 50 :=
  decRound_eq_self 50 (50 * 10 ^ 26) 1 (by norm_num) (by norm_num)
    (by norm_num) (by push_cast; norm_num)

theorem decRound_75 : decRound 75 = 75 :=
  decRound_eq_self 75 (75 * 10 ^ 26) 1 (by norm_num) (by norm_num)
    (by norm_num) (by push_cast; norm_num)

theorem decRound_100 : decRound 100 = 100 :=
  decRound_eq_self 100 (10 ^ 27) 2 (by norm_num) (by norm_num) (by norm_num)
    (by push_cast; norm_num)

theorem decRound_125 : decRound 125 = 125 :=
  decRound_eq_self 125 (125 * 10 ^ 25) 2 (by norm_num) (by norm_num)
    (by norm_num) (by push_cast; norm_num)

theorem decRound_150 : decRound 150 = 150 :=
  decRound_eq_self 150 (15 * 10 ^ 26) 2 (by norm_num) (by norm_num)
    (by norm_num) (by push_cast; norm_num)

theorem decRound_175 : decRound 175 = 175 :=
  decRound_eq_self 175 (175 * 10 ^ 25) 2 (by norm_num) (by norm_num)
    (by norm_num) (by push_cast; norm_num)

theorem decRound_200 : decRound 200 = 200 :=
  decRound_eq_self 200 (2 * 10 ^ 27) 2 (by norm_num) (by norm_num)
    (by norm_num) (by push_cast; norm_num)

/-- Dividing 1 by 3 in 28-digit decimal arithmetic: the quotient rounds
down to 0.3333333333333333333333333333. -/
theorem decRound_third :
    decRound (1/3) = 3333333333333333333333333333 / 10 ^ 28 := by
  rw [decRound_eq_scaled (1/3) (-1) (by norm_num)
    (by norm_num [abs_of_pos]) (by norm_num [abs_of_pos])]
  have hfl : ⌊(1/3 : ℚ) * (10 : ℚ) ^ (27 - (-1) : ℤ)⌋ =
      3333333333333333333333333333 := by
    rw [Int.floor_eq_iff]
    constructor
    · push_cast
      norm_num
    · push_cast
      norm_num
  unfold roundHalfEven
  rw [hfl]
  norm_num [zpow_neg]

/-- The 28-digit value 0.9999999999999999999999999999 is exactly
representable, so rounding fixes it. -/
theorem decRound_near_one :
    decRound (9999999999999999999999999999 / 10 ^ 28) =
      9999999999999999999999999999 / 10 ^ 28 :=
  decRound_eq_self _ 9999999999999999999999999999 (-1) (by norm_num)
    (by norm_num [abs_of_pos]) (by norm_num [abs_of_pos])
    (by push_cast; norm_num)

/-! ## Claims C2, C3, C7 — rate limiter -/

/-- Claim C2: "every call to `RateLimiter.acquire` that returns normally waits
until at least one token is available and then decrements the token count by
exactly one before returning; `acquire` never returns without having consumed
a token."  This fails on the scripts variant: from the freshly constructed
limiter (capacity 1, window 1) a first call consumes the only token, and a
second call with no elapsed time refills nothing, sleeps once, and returns
normally having consumed no token (`false`) and leaving the state unchanged. -/
theorem C2_scripts_acquire_returns_without_consuming :
    scriptsAcquire (scriptsInit 1 1) 0 = (⟨1, 1, 0⟩, true) ∧
    scriptsAcquire ⟨1, 1, 0⟩ 0 = (⟨1, 1, 0⟩, false) := by
  constructor <;> norm_num [scriptsAcquire, scriptsInit, bucketRefill, ratMin]

/-- Claim C3: "the token count stays within [0, capacity] … no decrement ever
takes it below zero."  This fails on the main variant: from the freshly
constructed limiter (capacity 1, window 1) one call empties the bucket; a
further call arriving after half a window refills the bucket to 1/2, exits
the `while self.tokens <= 0` loop (1/2 > 0), and decrements to −1/2 < 0. -/
theorem C3_main_tokens_go_negative :
    mainAcquire (mainInit 1 1 none) [] = some ⟨1, 1, 0⟩ ∧
    mainAcquire ⟨1, 1, 0⟩ [1/2] = some ⟨1, 1, -(1/2)⟩ ∧
    (-(1/2) : ℚ) < 0 := by
  refine ⟨?_, ?_, by norm_num⟩ <;>
    norm_num [mainAcquire, mainInit, bucketRefill, ratMin]

/-- Claim C7: "the mutual-exclusion lock is … never held across the wait for
token availability: a caller that finds zero tokens releases the lock before
sleeping."  This fails on both variants: with capacity 1, window 1 and an
empty bucket, the scripts variant sleeps between its lock acquisition and
release, and the main variant's retry loop sleeps inside the `async with`
block as well. -/
theorem C7_sleep_happens_while_lock_held :
    sleepsUnderLock (scriptsAcquireTrace ⟨1, 1, 0⟩ 0) = true ∧
    sleepsUnderLock (mainAcquireTrace ⟨1, 1, 0⟩ [0, 1]) = true := by
  constructor <;>
    norm_num [sleepsUnderLock, sleepsUnderLockFrom, scriptsAcquireTrace,
      mainAcquireTrace, mainLoopTrace, bucketRefill, ratMin]

/-! ## Claims C4, C5 — ladder construction -/

/-- Claim C4 (counterexample): the claim asserts the price at index i equals
the exact `lower + i*(upper-lower)/(N-1)` for EVERY configuration with
lower < upper and N ≥ 2.  At lower 0, upper 1, grid_size 4 that formula
gives price[3] = 1, but the program's Decimal division rounds the step 1/3
to 28 significant digits and the computed price[3] is
0.9999999999999999999999999999 ≠ 1 (the ladder does not even reach the
upper bound inclusively). -/
theorem C4_exact_price_formula_counterexample :
    (gridPricesDec cfgThirds)[3]? =
      some (9999999999999999999999999999 / 10 ^ 28 : ℚ) ∧
    (9999999999999999999999999999 / 10 ^ 28 : ℚ) ≠
      cfgThirds.lowerPrice +
        3 * (cfgThirds.upperPrice - cfgThirds.lowerPrice) /
          ((cfgThirds.gridSize : ℚ) - 1) := by
  constructor
  · have hstep : priceStepDec cfgThirds =
        3333333333333333333333333333 / 10 ^ 28 := by
      norm_num [priceStepDec, cfgThirds, decDiv, decSub, decRound_1,
        decRound_third]
    have hm : decMul (priceStepDec cfgThirds) ((3 : ℕ) : ℚ) =
        9999999999999999999999999999 / 10 ^ 28 := by
      rw [hstep]
      unfold decMul
      rw [show (3333333333333333333333333333 / 10 ^ 28 : ℚ) * ((3 : ℕ) : ℚ) =
          9999999999999999999999999999 / 10 ^ 28 by push_cast; norm_num]
      exact decRound_near_one
    have h3 : levelPriceDec cfgThirds 3 =
        9999999999999999999999999999 / 10 ^ 28 := by
      unfold levelPriceDec
      rw [hm, show cfgThirds.lowerPrice = 0 from rfl]
      unfold decAdd
      rw [zero_add]
      exact decRound_near_one
    have hidx : (gridPricesDec cfgThirds)[3]? =
        some (levelPriceDec cfgThirds 3) := by
      simp [gridPricesDec, List.getElem?_map, List.getElem?_range, cfgThirds]
    rw [hidx, h3]
  · norm_num [cfgThirds]

/-- Claim C4 (amended): ladder construction computes in Python Decimal
context arithmetic (28 significant digits, round-half-even): it produces
exactly N prices, the price at index i being
`lower ⊕ ((upper ⊖ lower) ⊘ (N−1)) ⊗ i` with every operation
context-rounded; at every index where these operations are exact on their
operands the price is the claimed `lower + i*(upper-lower)/(N-1)`; in
particular for grid_size 5, lower 100, upper 200 every operation is exact
and the prices are exactly [100, 125, 150, 175, 200]. -/
theorem C4_grid_prices_decimal (cfg : StrategyConfig)
    (hN : 2 ≤ cfg.gridSize) (hlt : cfg.lowerPrice < cfg.upperPrice) :
    (gridPricesDec cfg).length = cfg.gridSize ∧
    (∀ i : ℕ, i < cfg.gridSize →
      (gridPricesDec cfg)[i]? = some (levelPriceDec cfg i)) ∧
    (∀ i : ℕ, i < cfg.gridSize →
      decSub cfg.upperPrice cfg.lowerPrice =
        cfg.upperPrice - cfg.lowerPrice →
      decDiv (cfg.upperPrice - cfg.lowerPrice) ((cfg.gridSize : ℚ) - 1) =
        (cfg.upperPrice - cfg.lowerPrice) / ((cfg.gridSize : ℚ) - 1) →
      decMul ((cfg.upperPrice - cfg.lowerPrice) / ((cfg.gridSize : ℚ) - 1)) i =
        (cfg.upperPrice - cfg.lowerPrice) / ((cfg.gridSize : ℚ) - 1) * i →
      decAdd cfg.lowerPrice
          ((cfg.upperPrice - cfg.lowerPrice) / ((cfg.gridSize : ℚ) - 1) * i) =
        cfg.lowerPrice +
          (cfg.upperPrice - cfg.lowerPrice) / ((cfg.gridSize : ℚ) - 1) * i →
      levelPriceDec cfg i =
        cfg.lowerPrice +
          i * (cfg.upperPrice - cfg.lowerPrice) / ((cfg.gridSize : ℚ) - 1)) ∧
    gridPricesDec cfg5 = [100, 125, 150, 175, 200] := by
  refine ⟨by simp [gridPricesDec], ?_, ?_, ?_⟩
  · intro i hi
    simp [gridPricesDec, List.getElem?_map, List.getElem?_range, hi]
  · intro i hi hsub hdiv hmul hadd
    unfold levelPriceDec priceStepDec
    rw [hsub, hdiv, hmul, hadd]
    ring
  · norm_num [gridPricesDec, cfg5, List.range_succ, levelPriceDec,
      priceStepDec, decAdd, decMul, decDiv, decSub, decRound_zero,
      decRound_25, decRound_50, decRound_75, decRound_100, decRound_125,
      decRound_150, decRound_175, decRound_200]

/-- Claim C4 witness: the amended theorem applied to the concrete
configuration grid_size 5, lower 100, upper 200, with every exactness
hypothesis discharged at level 1. -/
theorem C4_grid_prices_decimal_witness :
    (gridPricesDec cfg5).length = cfg5.gridSize ∧
    levelPriceDec cfg5 1 =
      cfg5.lowerPrice + 1 * (cfg5.upperPrice - cfg5.lowerPrice) /
        ((cfg5.gridSize : ℚ) - 1) ∧
    gridPricesDec cfg5 = [100, 125, 150, 175, 200] := by
  obtain ⟨h1, _, h3, h4⟩ :=
    C4_grid_prices_decimal cfg5 (by norm_num [cfg5]) (by norm_num [cfg5])
  refine ⟨h1, ?_, h4⟩
  have hc := h3 1 (by norm_num [cfg5])
    (by norm_num [cfg5, decSub, decRound_100])
    (by norm_num [cfg5, decDiv, decRound_25])
    (by norm_num [cfg5, decMul, decRound_25])
    (by norm_num [cfg5, decAdd, decRound_125])
  simpa using hc

/-- Claim C5 (counterexample): the claim says every level is classified
against ONE single observed reference price (buy iff strictly below it).  In
the code the current price is re-fetched inside the loop, once per level;
with observations 100, 140, 160, 140, 140 the level at price 100 is
classified sell (100 < 100 fails) while the level at price 125 is classified
buy (125 < 140), and no single reference price ref can satisfy both
(it would need 125 < ref ≤ 100). -/
theorem C5_no_single_reference_counterexample :
    ¬ ∃ ref : ℚ, ∀ i : ℕ, i < cfg5.gridSize →
        classifySide (levelPrice cfg5 i) (obsVarying i) =
          classifySide (levelPrice cfg5 i) ref := by
  rintro ⟨ref, h⟩
  have h0 := h 0 (by norm_num [cfg5])
  have h1 := h 1 (by norm_num [cfg5])
  have p0 : levelPrice cfg5 0 = 100 := by norm_num [levelPrice, priceStep, cfg5]
  have p1 : levelPrice cfg5 1 = 125 := by norm_num [levelPrice, priceStep, cfg5]
  rw [p0] at h0
  rw [p1] at h1
  have e0 : classifySide (100 : ℚ) (obsVarying 0) = Side.sell := by
    norm_num [classifySide, obsVarying]
  have e1 : classifySide (125 : ℚ) (obsVarying 1) = Side.buy := by
    norm_num [classifySide, obsVarying]
  rw [e0] at h0
  rw [e1] at h1
  by_cases hr : (100 : ℚ) < ref
  · rw [classifySide, if_pos hr] at h0
    exact Side.noConfusion h0
  · have hr125 : ¬ (125 : ℚ) < ref := fun hc => hr (by linarith)
    rw [classifySide, if_neg hr125] at h1
    exact Side.noConfusion h1

/-- Claim C5 (amended): each level is classified against the current price
observed during that level's OWN loop iteration — level i is buy iff its
price is strictly below observation i, and sell otherwise (ties to sell);
when every observation equals 140 the levels [100,125,150,175,200] classify
as [buy, buy, sell, sell, sell]. -/
theorem C5_per_iteration_classification (cfg : StrategyConfig)
    (priceObs : ℕ → ℚ) (i : ℕ) (hi : i < cfg.gridSize) :
    ((gridPlacements cfg priceObs)[i]? =
      some (classifySide (levelPrice cfg i) (priceObs i), levelPrice cfg i)) ∧
    (classifySide (levelPrice cfg i) (priceObs i) = Side.buy ↔
      levelPrice cfg i < priceObs i) ∧
    (gridPlacements cfg5 (fun _ => 140)).map Prod.fst =
      [Side.buy, Side.buy, Side.sell, Side.sell, Side.sell] := by
  refine ⟨?_, ?_, ?_⟩
  · simp [gridPlacements, List.getElem?_map, List.getElem?_range, hi]
  · by_cases h : levelPrice cfg i < priceObs i <;> simp [classifySide, h]
  · norm_num [gridPlacements, classifySide, levelPrice, priceStep, cfg5,
      List.range_succ]

/-- Claim C5 witness: the amended theorem applied to the example
configuration, the constant observation 140 and level 0. -/
theorem C5_per_iteration_classification_witness :
    ((gridPlacements cfg5 (fun _ => 140))[0]? =
      some (classifySide (levelPrice cfg5 0) 140, levelPrice cfg5 0)) ∧
    (classifySide (levelPrice cfg5 0) 140 = Side.buy ↔
      levelPrice cfg5 0 < 140) :=
  ⟨(C5_per_iteration_classification cfg5 (fun _ => 140) 0
      (by norm_num [cfg5])).1,
   (C5_per_iteration_classification cfg5 (fun _ => 140) 0
      (by norm_num [cfg5])).2.1⟩

/-! ## Claim C6 — stop -/

/-- Claim C6 (counterexample): with one live order resting, `stop()` issues
zero cancel requests through the exchange — not one per live order — before
the engine stops running. -/
theorem C6_stop_cancels_nothing_counterexample :
    (gridStrategyStop ⟨true, ["order-1"]⟩).2 = 0 ∧
    ¬ 1 ≤ (gridStrategyStop ⟨true, ["order-1"]⟩).2 ∧
    (⟨true, ["order-1"]⟩ : GridStrategyState).activeOrders.length = 1 := by
  refine ⟨rfl, by decide, rfl⟩

/-- Claim C6 (amended): `stop()` only clears the running flag: it issues
zero cancel requests, leaves the active-orders table untouched, and is
idempotent — a second call returns the same state and again zero cancel
requests, so at most one (in fact zero) cancel attempt is ever issued per
open order. -/
theorem C6_stop_flag_only_and_idempotent (s : GridStrategyState) :
    (gridStrategyStop s).2 = 0 ∧
    (gridStrategyStop s).1.activeOrders = s.activeOrders ∧
    (gridStrategyStop s).1.isRunning = false ∧
    gridStrategyStop (gridStrategyStop s).1 = ((gridStrategyStop s).1, 0) :=
  ⟨rfl, rfl, rfl, rfl⟩

/-! ## Claim C8 — placement failures never escape -/

/-- Claim C8: for every level, a failure of any kind while placing that
level's order during setup is caught (`except Exception`) and recorded, the
loop continues with the remaining levels, and no exception from order
placement escapes: the run always returns `.ok` with one outcome record per
level, a `failed` record exactly where the exchange call failed. -/
theorem C8_place_failures_never_escape (cfg : StrategyConfig)
    (priceObs : ℕ → ℚ) (exch : ℕ → Except ExchangeFailure String) :
    gridSetupRun cfg priceObs exch =
      Except.ok ((List.range cfg.gridSize).map (levelOutcome cfg priceObs exch)) ∧
    ((List.range cfg.gridSize).map (levelOutcome cfg priceObs exch)).length =
      cfg.gridSize := by
  constructor
  · unfold gridSetupRun
    generalize List.range cfg.gridSize = l
    induction l with
    | nil => rfl
    | cons i rest ih =>
      simp only [runGridSetup, placeGridOrder, levelOutcome, List.map_cons]
      cases hres : exch i <;> simp [ih, hres]
  · simp

/-! ## Claim C9 — configuration validation -/

/-- Claim C9 (counterexample): a configuration with upper_price 100 <
lower_price 200 and quantity_per_order −1 violates two of the three claimed
bounds, yet validation accepts it, because only grid_size is checked. -/
theorem C9_validation_accepts_bad_bounds :
    validateGridConfig ⟨"BTC-USD", 5, 100, 200, -1⟩ =
      Except.ok ⟨"BTC-USD", 5, 100, 200, -1⟩ ∧
    ¬ ((100 : ℚ) > 200) ∧ ¬ ((-1 : ℚ) > 0) := by
  refine ⟨by norm_num [validateGridConfig], by norm_num, by norm_num⟩

/-- Claim C9 (amended): load-time validation enforces exactly one of the
three claimed bounds: a configuration is accepted iff grid_size ≥ 2; the
bounds upper_price > lower_price and quantity_per_order > 0 are never
checked. -/
theorem C9_validation_checks_only_grid_size (c : RawGridConfig) :
    validateGridConfig c = Except.ok c ↔ 2 ≤ c.gridSize := by
  unfold validateGridConfig
  constructor
  · intro hok
    by_contra hlt
    rw [if_pos (show c.gridSize < 2 by omega)] at hok
    exact Except.noConfusion hok
  · intro h2
    rw [if_neg (show ¬ c.gridSize < 2 by omega)]

/-! ## Claim C10 — abstract instantiation -/

/-- Claim C10: `GridTradingStrategy` overrides only `initialize` among the
abstract methods of `TradingStrategy`; `start`, `stop`, `on_price_update`
and `on_order_filled` remain abstract, so every instantiation (as `cli.py`
line 51 and `examples/basic_usage.py` line 38 attempt) raises TypeError
before any exchange call can be made. -/
theorem C10_grid_strategy_not_instantiable :
    tradingStrategyAbstract.filter
        (fun m => gridTradingStrategyDefined.contains m) = ["initialize"] ∧
    unimplementedAbstract =
      ["start", "stop", "on_price_update", "on_order_filled"] ∧
    abcRaisesTypeError = true := by
  refine ⟨by decide, by decide, by decide⟩

/-! ## Claim C1 — fill-driven rebalancing (engine modelled from spec §4.3) -/

/-- Claim C1: for a ladder in state running, a filled buy at level i with
i+1 < N and level i+1's slot empty places exactly one new sell order at
level i+1's price and clears level i's slot; symmetrically, a filled sell at
level j+1 with level j's slot empty places exactly one new buy order at
level j's price and clears level j+1's slot.  (`on_order_filled` is abstract
in the source; `engineOnOrderFilled` is modelled from the spec.) -/
theorem C1_fill_rebalancing (eng : GridEngine) (i : ℕ) (li lt : GLevel)
    (ord : GOrder)
    (hrun : eng.phase = EnginePhase.running)
    (hi : eng.levels[i]? = some li)
    (hslot : li.slot = some ord) :
    (ord.side = Side.buy → eng.levels[i + 1]? = some lt → lt.slot = none →
      (engineOnOrderFilled eng i).2 = [⟨Side.sell, lt.price⟩] ∧
      (engineOnOrderFilled eng i).1.levels[i]? = some ⟨li.price, none⟩ ∧
      (engineOnOrderFilled eng i).1.levels[i + 1]? =
        some ⟨lt.price, some ⟨Side.sell, lt.price⟩⟩ ∧
      (engineOnOrderFilled eng i).1.phase = EnginePhase.running) ∧
    (∀ j : ℕ, ord.side = Side.sell → i = j + 1 → eng.levels[j]? = some lt →
      lt.slot = none →
      (engineOnOrderFilled eng i).2 = [⟨Side.buy, lt.price⟩] ∧
      (engineOnOrderFilled eng i).1.levels[i]? = some ⟨li.price, none⟩ ∧
      (engineOnOrderFilled eng i).1.levels[j]? =
        some ⟨lt.price, some ⟨Side.buy, lt.price⟩⟩ ∧
      (engineOnOrderFilled eng i).1.phase = EnginePhase.running) := by
  have hilen : i < eng.levels.length := by
    rcases List.getElem?_eq_some.mp hi with ⟨h, _⟩
    exact h
  constructor
  · intro hbuy ht hts
    have htlen : i + 1 < eng.levels.length := by
      rcases List.getElem?_eq_some.mp ht with ⟨h, _⟩
      exact h
    have hcl : (eng.levels.set i ⟨li.price, none⟩)[i + 1]? = some lt := by
      rw [List.getElem?_set_ne (by omega)]
      exact ht
    have heng : engineOnOrderFilled eng i =
        ({ eng with levels :=
            ((eng.levels.set i ⟨li.price, none⟩).set (i + 1)
              ⟨lt.price, some ⟨Side.sell, lt.price⟩⟩) },
         [⟨Side.sell, lt.price⟩]) := by
      simp only [engineOnOrderFilled, hrun, hi, hslot, hbuy, rebalanceTarget,
        hcl, hts, Side.opposite, ne_eq, not_true_eq_false, if_false]
    refine ⟨by rw [heng], ?_, ?_, by rw [heng]; exact hrun⟩
    · rw [heng]
      simp only
      rw [List.getElem?_set_ne (by omega),
        List.getElem?_set_eq_of_lt _ (by simpa using hilen)]
    · rw [heng]
      simp only
      rw [List.getElem?_set_eq_of_lt _ (by simpa using htlen)]
  · intro j hsell hij ht hts
    subst hij
    have htlen : j < eng.levels.length := by
      rcases List.getElem?_eq_some.mp ht with ⟨h, _⟩
      exact h
    have hcl : (eng.levels.set (j + 1) ⟨li.price, none⟩)[j]? = some lt := by
      rw [List.getElem?_set_ne (by omega)]
      exact ht
    have heng : engineOnOrderFilled eng (j + 1) =
        ({ eng with levels :=
            ((eng.levels.set (j + 1) ⟨li.price, none⟩).set j
              ⟨lt.price, some ⟨Side.buy, lt.price⟩⟩) },
         [⟨Side.buy, lt.price⟩]) := by
      simp only [engineOnOrderFilled, hrun, hi, hslot, hsell, rebalanceTarget,
        hcl, hts, Side.opposite, ne_eq, not_true_eq_false, if_false]
    refine ⟨by rw [heng], ?_, ?_, by rw [heng]; exact hrun⟩
    · rw [heng]
      simp only
      rw [List.getElem?_set_ne (by omega),
        List.getElem?_set_eq_of_lt _ (by simpa using hilen)]
    · rw [heng]
      simp only
      rw [List.getElem?_set_eq_of_lt _ (by simpa using htlen)]

/-- Claim C1 witness: on the two-level running engines, the buy fill at
level 0 places exactly one sell at 125 and clears level 0, and the sell fill
at level 1 places exactly one buy at 100 and clears level 1. -/
theorem C1_fill_rebalancing_witness :
    ((engineOnOrderFilled engTwoBuy 0).2 = [⟨Side.sell, 125⟩] ∧
      (engineOnOrderFilled engTwoBuy 0).1.levels[0]? = some ⟨100, none⟩) ∧
    ((engineOnOrderFilled engTwoSell 1).2 = [⟨Side.buy, 100⟩] ∧
      (engineOnOrderFilled engTwoSell 1).1.levels[1]? = some ⟨125, none⟩) := by
  have hb := (C1_fill_rebalancing engTwoBuy 0 ⟨100, some ⟨Side.buy, 100⟩⟩
      ⟨125, none⟩ ⟨Side.buy, 100⟩ rfl rfl rfl).1 rfl rfl rfl
  have hs := ((C1_fill_rebalancing engTwoSell 1 ⟨125, some ⟨Side.sell, 125⟩⟩
      ⟨100, none⟩ ⟨Side.sell, 125⟩ rfl rfl rfl).2 0 rfl rfl rfl rfl)
  exact ⟨⟨hb.1, hb.2.1⟩, ⟨hs.1, hs.2.1⟩⟩

end GridBot
